import Mathlib

/-!
Shallow embedding of the real-time messaging backend
(socket handlers, socket auth service room addressing, message model).

Sources embedded:
- src/unnamed/part_005 (SocketAuthService): getUserRoom, getChatRoom
- src/models/Message.js (Message model): create, getChatHistory
- src/handlers/socketHandlers.js (SocketHandlers): handleConnection,
  handleSendMessage, handleGetChatHistory, handleDisconnect,
  the connectedUsers map

User ids are modelled as Nat (database AUTOINCREMENT integers),
timestamps as Nat (monotone store-assigned instants), message ids as Nat.
JavaScript truthiness at the validation sites is modelled explicitly:
an absent field is Option.none, and the falsy values 0 (for ids) and ""
(for message bodies) are rejected by the same checks that reject absence.
-/

namespace Backend

/-- Room Router, from SocketAuthService.getUserRoom (src/unnamed/part_005):
`return ` + backtick-template `user_$\x7buserId\x7d`. -/
def getUserRoom (userId : Nat) : String :=
  "user_" ++ toString userId

/-- Room Router, from SocketAuthService.getChatRoom (src/unnamed/part_005):
sorts the two ids ascending with sort((a, b) => a - b) on the two-element
array, then combines as `chat_<lo>_<hi>`. Sorting a two-element array
ascending is exactly taking min then max. -/
def getChatRoom (userId1 userId2 : Nat) : String :=
  let lo := min userId1 userId2
  let hi := max userId1 userId2
  "chat_" ++ toString lo ++ "_" ++ toString hi

/-- A user row, as selected by User.findById (id, username; created_at
omitted as no claim depends on it). -/
structure UserRec where
  id : Nat
  username : String
deriving Repr, DecidableEq

/-- User.findById: `SELECT ... FROM users WHERE id = ?`, first row or null. -/
def findById (users : List UserRec) (uid : Nat) : Option UserRec :=
  (users.find? (fun u => u.id == uid))

/-- A persisted message row of the messages table. -/
structure Msg where
  id : Nat
  from_user_id : Nat
  to_user_id : Nat
  message : String
  timestamp : Nat
deriving Repr, DecidableEq

/-- The WHERE clause of Message.getChatHistory:
`(m.from_user_id = u1 AND m.to_user_id = u2) OR
 (m.from_user_id = u2 AND m.to_user_id = u1)`. -/
def chatPairPred (userId1 userId2 : Nat) (m : Msg) : Bool :=
  (m.from_user_id == userId1 && m.to_user_id == userId2) ||
  (m.from_user_id == userId2 && m.to_user_id == userId1)

/-- A result row of Message.getChatHistory: message columns plus
`u.username as from_username` from the JOIN with users. -/
structure HistoryRow where
  id : Nat
  from_user_id : Nat
  to_user_id : Nat
  message : String
  timestamp : Nat
  from_username : String
deriving Repr, DecidableEq

/-- Ordering used by `ORDER BY m.timestamp ASC`. -/
def rowLe (a b : HistoryRow) : Prop :=
  a.timestamp ≤ b.timestamp

instance : DecidableRel rowLe := fun a b => Nat.decLe a.timestamp b.timestamp

instance : IsTotal HistoryRow rowLe :=
  ⟨fun a b => Nat.le_total a.timestamp b.timestamp⟩

instance : IsTrans HistoryRow rowLe :=
  ⟨fun _ _ _ h1 h2 => Nat.le_trans h1 h2⟩

/-- The FROM/JOIN/WHERE part of Message.getChatHistory: every message row
of the store whose {from,to} pair matches {userId1,userId2} in either
direction, joined with the users table on from_user_id to attach
from_username (rows whose sender id has no user row are dropped by the
inner JOIN). -/
def conversationRows (users : List UserRec) (store : List Msg)
    (userId1 userId2 : Nat) : List HistoryRow :=
  store.filterMap (fun m =>
    if chatPairPred userId1 userId2 m then
      (findById users m.from_user_id).map (fun u =>
        ⟨m.id, m.from_user_id, m.to_user_id, m.message, m.timestamp, u.username⟩)
    else none)

/-- Message.getChatHistory (src/models/Message.js): the SELECT with the
symmetric pair WHERE clause, `ORDER BY m.timestamp ASC`, `LIMIT ?`.
The limit is bound as given (never validated upstream); SQLite treats a
negative LIMIT as unlimited, and LIMIT 0 returns no rows. -/
def getChatHistory (users : List UserRec) (store : List Msg)
    (userId1 userId2 : Nat) (limit : Int) : List HistoryRow :=
  let ordered := List.insertionSort rowLe (conversationRows users store userId1 userId2)
  if limit < 0 then ordered else ordered.take limit.toNat

/-- Executable model of the JavaScript String.prototype.trim used at
`message.trim()` in SocketHandlers.handleSendMessage: removes whitespace
characters from both ends of the string. -/
def strTrim (s : String) : String :=
  ⟨((s.data.dropWhile Char.isWhitespace).reverse.dropWhile Char.isWhitespace).reverse⟩

/-- The message object that SocketHandlers.handleSendMessage builds for
clients from the saved message plus both usernames. -/
structure MessageObject where
  id : Nat
  from_user_id : Nat
  from_username : String
  to_user_id : Nat
  to_username : String
  message : String
  timestamp : Nat
deriving Repr, DecidableEq

/-- An event emitted by the send handler. errorEvent and messageSent go to
the sending socket; receiveMessage is emitted to a room via io.to(room). -/
inductive SendEvent where
  | errorEvent (msg : String)
  | receiveMessage (room : String) (payload : MessageObject)
  | messageSent (payload : MessageObject)
deriving Repr, DecidableEq

/-- The messages table plus the AUTOINCREMENT id counter that
Message.create draws from. -/
structure MessageStore where
  messages : List Msg
  nextId : Nat
deriving Repr, DecidableEq

/-- SocketHandlers.handleSendMessage (src/handlers/socketHandlers.js).
Inputs: the users table, a flag persistFails modelling the store throwing
at Message.create (caught by the catch block), the message store, the
store-assigned timestamp `now`, the authenticated socket identity
(senderId, senderName), and the event payload fields to_user_id and
message (none models an absent field; for message, none also models a
non-string value, rejected by `typeof message !== 'string'`).
Returns the resulting store and the list of emitted events, in order.
The JavaScript guard `!to_user_id || !message` also rejects the falsy
values 0 and the empty string, modelled by the explicit == checks. -/
def handleSendMessage (users : List UserRec) (persistFails : Bool)
    (st : MessageStore) (now : Nat) (senderId : Nat) (senderName : String)
    (to_user_id : Option Nat) (message : Option String) :
    MessageStore × List SendEvent :=
  match to_user_id, message with
  | some t, some m =>
    if t == 0 || m == "" then
      (st, [SendEvent.errorEvent "Invalid message data"])
    else
      match findById users t with
      | none => (st, [SendEvent.errorEvent "Recipient not found"])
      | some recipient =>
        if persistFails then
          (st, [SendEvent.errorEvent "Failed to send message"])
        else
          let saved : Msg :=
            ⟨st.nextId, senderId, t, strTrim m, now⟩
          let newStore : MessageStore :=
            ⟨st.messages ++ [saved], st.nextId + 1⟩
          let obj : MessageObject :=
            ⟨saved.id, senderId, senderName, t, recipient.username,
             saved.message, saved.timestamp⟩
          (newStore,
           [SendEvent.receiveMessage (getUserRoom t) obj,
            SendEvent.messageSent obj])
  | _, _ => (st, [SendEvent.errorEvent "Invalid message data"])

/-- An event emitted by the chat-history handler. -/
inductive HistoryOutput where
  | errorEvent (msg : String)
  | chatHistory (other_user_id : Nat) (messages : List HistoryRow)
deriving Repr, DecidableEq

/-- SocketHandlers.handleGetChatHistory (src/handlers/socketHandlers.js):
destructures `\x7b other_user_id, limit = 50 \x7d = data` (the default 50
applies only when limit is absent), rejects a falsy other_user_id with
the error event, and otherwise forwards userId, other_user_id and limit
unchecked to Message.getChatHistory and emits the result. -/
def handleGetChatHistory (users : List UserRec) (store : List Msg)
    (selfId : Nat) (other_user_id : Option Nat) (limit : Option Int) :
    HistoryOutput :=
  match other_user_id with
  | none => HistoryOutput.errorEvent "Invalid request data"
  | some other =>
    if other == 0 then HistoryOutput.errorEvent "Invalid request data"
    else HistoryOutput.chatHistory other
      (getChatHistory users store selfId other (limit.getD 50))

/-- The value stored per user in the connectedUsers map: socketId and
username (connectedAt omitted as no claim depends on it). -/
structure ConnInfo where
  socketId : Nat
  username : String
deriving Repr, DecidableEq

/-- The connectedUsers JavaScript Map, keyed by userId, in insertion
order. -/
abbrev Registry := List (Nat × ConnInfo)

/-- JavaScript Map.set semantics: if the key is present its value is
replaced in place (insertion order kept), otherwise the pair is appended. -/
def mapSet (m : Registry) (k : Nat) (v : ConnInfo) : Registry :=
  if m.any (fun p => p.fst == k) then
    m.map (fun p => if p.fst == k then (k, v) else p)
  else m ++ [(k, v)]

/-- JavaScript Map.delete semantics: removes the entry with the key. -/
def mapDelete (m : Registry) (k : Nat) : Registry :=
  m.filter (fun p => p.fst != k)

/-- JavaScript Map.get semantics: the value stored at the key, if any. -/
def mapGet (m : Registry) (k : Nat) : Option ConnInfo :=
  (m.find? (fun p => p.fst == k)).map Prod.snd

/-- The registry-mutating socket lifecycle events. A connection carries
the authenticated userId, the transport-assigned socket id and the
username; a disconnect carries the userId and socket id of the closing
socket. -/
inductive SocketEvent where
  | connection (userId socketId : Nat) (username : String)
  | disconnect (userId socketId : Nat)
deriving Repr, DecidableEq

/-- The effect of one lifecycle event on connectedUsers:
SocketHandlers.handleConnection does
connectedUsers.set(socket.userId, \x7bsocketId, username, ...\x7d);
SocketHandlers.handleDisconnect does
connectedUsers.delete(socket.userId) — keyed by the userId of the
closing socket, its socket id is not consulted. -/
def registryStep (m : Registry) : SocketEvent → Registry
  | SocketEvent.connection userId socketId username =>
      mapSet m userId ⟨socketId, username⟩
  | SocketEvent.disconnect userId _socketId =>
      mapDelete m userId

/-- The connectedUsers map reached from the initial empty Map after a
sequence of lifecycle events. -/
def runRegistry (es : List SocketEvent) : Registry :=
  es.foldl registryStep []

/-- A live socket.io connection: the rooms it has joined. On admission a
socket joins its personal room getUserRoom(userId); each join_chat adds a
getChatRoom room. -/
structure SocketConn where
  socketId : Nat
  userId : Nat
  rooms : List String
deriving Repr, DecidableEq

/-- socket.io room broadcast: io.to(room).emit reaches exactly the
sockets that have joined the room. -/
def emitToRoom (room : String) (sockets : List SocketConn) : List SocketConn :=
  sockets.filter (fun s => s.rooms.contains room)

/-- Error value of the room-router contract stated in the specification. -/
inductive AddrError where
  | InvalidPair
deriving Repr, DecidableEq

/-- Conversation addressing as the SPECIFICATION states it, for comparison
with the getChatRoom of the source: fails with InvalidPair when the two
ids are equal, otherwise the sorted-and-combined address. -/
def conversationAddressSpec (userIdA userIdB : Nat) : Except AddrError String :=
  if userIdA == userIdB then Except.error AddrError.InvalidPair
  else Except.ok (getChatRoom userIdA userIdB)

/-- Chat history as the SPECIFICATION states it, for comparison with the
getChatHistory of the source: the most recent `limit` conversation rows,
in ascending order of creation time (the oldest ones beyond the cap
dropped). -/
def getChatHistorySpecMostRecent (users : List UserRec) (store : List Msg)
    (userId1 userId2 : Nat) (limit : Nat) : List HistoryRow :=
  let ordered := List.insertionSort rowLe (conversationRows users store userId1 userId2)
  ordered.drop (ordered.length - limit)

/-- Test fixture: two registered users. -/
def sampleUsers : List UserRec := [⟨1, "alice"⟩, ⟨2, "bob"⟩]

/-- Test fixture: five persisted messages between users 1 and 2, with
store-assigned ids and ascending timestamps. -/
def sampleStore : List Msg :=
  [⟨1, 1, 2, "m1", 1⟩, ⟨2, 2, 1, "m2", 2⟩, ⟨3, 1, 2, "m3", 3⟩,
   ⟨4, 2, 1, "m4", 4⟩, ⟨5, 1, 2, "m5", 5⟩]

/-- Test fixture: an empty message store whose next id is 1. -/
def emptyStore : MessageStore := ⟨[], 1⟩

/-- The WHERE clause of getChatHistory is symmetric in the two user ids. -/
theorem chatPairPred_symm (u1 u2 : Nat) (m : Msg) :
    chatPairPred u1 u2 m = chatPairPred u2 u1 m := by
  unfold chatPairPred
  exact Bool.or_comm _ _

/-- The joined-and-filtered row set of getChatHistory is symmetric in the
two user ids. -/
theorem conversationRows_symm (users : List UserRec) (store : List Msg)
    (u1 u2 : Nat) :
    conversationRows users store u1 u2 = conversationRows users store u2 u1 := by
  unfold conversationRows
  exact List.filterMap_congr (fun m _ => by rw [chatPairPred_symm])

/-- A personal room never coincides with a chat room: the former starts
with the character u, the latter with c. -/
theorem userRoom_ne_chatRoom (u x y : Nat) : getUserRoom u ≠ getChatRoom x y := by
  intro h
  have hd := congrArg String.data h
  simp only [getUserRoom, getChatRoom, String.data_append] at hd
  simp at hd

/-- Claim C7: for distinct user ids x and y, the conversation address is
symmetric, and is computed by sorting the two ids ascending (min first,
max second) and combining them into the room name. -/
theorem getChatRoom_symm_sorted (x y : Nat) (_h : x ≠ y) :
    getChatRoom x y = getChatRoom y x ∧
    getChatRoom x y = "chat_" ++ toString (min x y) ++ "_" ++ toString (max x y) := by
  constructor
  · unfold getChatRoom
    rw [Nat.min_comm x y, Nat.max_comm x y]
  · rfl

/-- Witness for C7 at the pair (3, 7) of the specification. -/
theorem getChatRoom_symm_sorted_witness :
    getChatRoom 3 7 = getChatRoom 7 3 ∧
    getChatRoom 3 7 = "chat_" ++ toString (min 3 7) ++ "_" ++ toString (max 3 7) :=
  getChatRoom_symm_sorted 3 7 (by decide)

/-- Counterexample for C2: at the concrete input (5, 5) the code computes
the ordinary address chat_5_5 and returns it; it does not fail, while the
specification-side conversationAddressSpec demands the InvalidPair error
there. -/
theorem getChatRoom_self_counterexample :
    getChatRoom 5 5 = "chat_5_5" ∧
    conversationAddressSpec 5 5 = Except.error AddrError.InvalidPair := by
  exact ⟨by decide, rfl⟩

/-- Claim C2 amended: getChatRoom never fails; on a pair of equal ids it
returns the degenerate self address chat_x_x. -/
theorem getChatRoom_self_returns_address (x : Nat) :
    getChatRoom x x = "chat_" ++ toString x ++ "_" ++ toString x := by
  unfold getChatRoom
  rw [Nat.min_self, Nat.max_self]

/-- Claim C8: chat history is symmetric in the order of the two
participants: getChatHistory with (A, B) and with (B, A) returns the
identical row list, for every store, user table and limit. -/
theorem getChatHistory_symm (users : List UserRec) (store : List Msg)
    (u1 u2 : Nat) (limit : Int) :
    getChatHistory users store u1 u2 limit = getChatHistory users store u2 u1 limit := by
  unfold getChatHistory
  rw [conversationRows_symm]

/-- Counterexample for C1: with 5 persisted messages between users 1 and 2
and limit 2, the code returns the rows with ids 1 and 2 — the two OLDEST
messages — whereas the claim demands the two most recent (ids 4 and 5,
as getChatHistorySpecMostRecent computes). -/
theorem getChatHistory_oldest_counterexample :
    (getChatHistory sampleUsers sampleStore 1 2 2).map (fun r => r.id) = [1, 2] ∧
    (getChatHistorySpecMostRecent sampleUsers sampleStore 1 2 2).map (fun r => r.id) = [4, 5] ∧
    getChatHistory sampleUsers sampleStore 1 2 2 ≠
      getChatHistorySpecMostRecent sampleUsers sampleStore 1 2 2 := by
  exact ⟨by decide, by decide, by decide⟩

/-- Claim C1 amended: getChatHistory splits the conversation rows into the
returned slice and a dropped remainder; the returned slice is in ascending
order of creation time, every returned row is no newer than every dropped
row (so the OLDEST `limit` rows are returned and the most recent beyond
the cap are dropped), and when more than `limit` rows exist exactly
`limit` are returned. -/
theorem getChatHistory_returns_oldest (users : List UserRec) (store : List Msg)
    (a b : Nat) (lim : Nat) :
    ∃ dropped : List HistoryRow,
      (getChatHistory users store a b (lim : Int) ++ dropped).Perm
        (conversationRows users store a b) ∧
      (getChatHistory users store a b (lim : Int)).Sorted rowLe ∧
      (∀ x ∈ getChatHistory users store a b (lim : Int),
        ∀ y ∈ dropped, x.timestamp ≤ y.timestamp) ∧
      (lim < (conversationRows users store a b).length →
        (getChatHistory users store a b (lim : Int)).length = lim) := by
  have hneg : ¬((lim : Int) < 0) := by
    exact Int.not_lt.mpr (Int.natCast_nonneg lim)
  have hget : getChatHistory users store a b (lim : Int) =
      (List.insertionSort rowLe (conversationRows users store a b)).take lim := by
    unfold getChatHistory
    simp [hneg]
  refine ⟨(List.insertionSort rowLe (conversationRows users store a b)).drop lim,
    ?_, ?_, ?_, ?_⟩
  · rw [hget, List.take_append_drop]
    exact List.perm_insertionSort rowLe (conversationRows users store a b)
  · rw [hget]
    exact List.Pairwise.sublist (List.take_sublist _ _)
      (List.sorted_insertionSort rowLe (conversationRows users store a b))
  · intro x hx y hy
    have hs := List.sorted_insertionSort rowLe (conversationRows users store a b)
    rw [← List.take_append_drop lim
      (List.insertionSort rowLe (conversationRows users store a b))] at hs
    have hcross := (List.pairwise_append.mp hs).2.2
    rw [hget] at hx
    exact hcross x hx y hy
  · intro hlt
    rw [hget, List.length_take, List.length_insertionSort]
    exact Nat.min_eq_left (Nat.le_of_lt hlt)

/-- Witness for the amended C1 at the 5-message fixture with limit 2:
more than 2 conversation rows exist, and the amended statement holds
there. -/
theorem getChatHistory_returns_oldest_witness :
    2 < (conversationRows sampleUsers sampleStore 1 2).length ∧
    (∃ dropped : List HistoryRow,
      (getChatHistory sampleUsers sampleStore 1 2 ((2 : Nat) : Int) ++ dropped).Perm
        (conversationRows sampleUsers sampleStore 1 2) ∧
      (getChatHistory sampleUsers sampleStore 1 2 ((2 : Nat) : Int)).Sorted rowLe ∧
      (∀ x ∈ getChatHistory sampleUsers sampleStore 1 2 ((2 : Nat) : Int),
        ∀ y ∈ dropped, x.timestamp ≤ y.timestamp) ∧
      (2 < (conversationRows sampleUsers sampleStore 1 2).length →
        (getChatHistory sampleUsers sampleStore 1 2 ((2 : Nat) : Int)).length = 2)) :=
  ⟨by decide, getChatHistory_returns_oldest sampleUsers sampleStore 1 2 2⟩

/-- Counterexample for C4: a getHistory request with the non-positive
limit 0 is not rejected with an InvalidPayload error: the handler answers
with a (empty) chat_history event. -/
theorem handleGetChatHistory_zero_limit_counterexample :
    handleGetChatHistory sampleUsers sampleStore 1 (some 2) (some 0) =
      HistoryOutput.chatHistory 2 [] := by
  decide

/-- Claim C4 amended: when the limit field is absent it defaults to 50;
a limit below or equal to 0 is NOT rejected as InvalidPayload — the value
is handed to the store query unchecked, and limit 0 yields an empty
history event. -/
theorem handleGetChatHistory_default_and_zero (users : List UserRec)
    (store : List Msg) (selfId other : Nat) (h : (other == 0) = false) :
    handleGetChatHistory users store selfId (some other) none =
      HistoryOutput.chatHistory other (getChatHistory users store selfId other 50) ∧
    handleGetChatHistory users store selfId (some other) (some 0) =
      HistoryOutput.chatHistory other [] := by
  constructor
  · simp [handleGetChatHistory, h]
  · simp [handleGetChatHistory, h, getChatHistory]

/-- Witness for the amended C4 at the 5-message fixture, requesting the
history of users 1 and 2. -/
theorem handleGetChatHistory_default_and_zero_witness :
    handleGetChatHistory sampleUsers sampleStore 1 (some 2) none =
      HistoryOutput.chatHistory 2 (getChatHistory sampleUsers sampleStore 1 2 50) ∧
    handleGetChatHistory sampleUsers sampleStore 1 (some 2) (some 0) =
      HistoryOutput.chatHistory 2 [] :=
  handleGetChatHistory_default_and_zero sampleUsers sampleStore 1 2 (by decide)

/-- Counterexample for C3: a send whose body is the whitespace-only string
does NOT fail with InvalidPayload: the validation guard only rejects falsy
bodies, so the body is trimmed to the empty string, persisted as a row,
delivered to the recipient room and acknowledged to the sender. -/
theorem send_whitespace_body_counterexample :
    handleSendMessage sampleUsers false emptyStore 10 1 "alice" (some 2) (some " ") =
      (⟨[⟨1, 1, 2, "", 10⟩], 2⟩,
       [SendEvent.receiveMessage "user_2" ⟨1, 1, "alice", 2, "bob", "", 10⟩,
        SendEvent.messageSent ⟨1, 1, "alice", 2, "bob", "", 10⟩]) := by
  decide

/-- Claim C3 amended: a send whose body is absent, a non-string, or the
empty string fails with the InvalidPayload error, persists nothing and
delivers nothing; but a body that is merely whitespace-only passes the
validation, so it is never rejected as InvalidPayload (it proceeds to the
recipient check and, when that succeeds, is persisted trimmed-to-empty). -/
theorem send_empty_body_invalid (users : List UserRec) (pf : Bool)
    (st : MessageStore) (now sid : Nat) (sname : String) (toU : Option Nat)
    (t : Nat) (ht : (t == 0) = false) :
    handleSendMessage users pf st now sid sname toU (some "") =
      (st, [SendEvent.errorEvent "Invalid message data"]) ∧
    handleSendMessage users pf st now sid sname toU none =
      (st, [SendEvent.errorEvent "Invalid message data"]) ∧
    (handleSendMessage users pf st now sid sname (some t) (some " ")).2 ≠
      [SendEvent.errorEvent "Invalid message data"] := by
  refine ⟨?_, ?_, ?_⟩
  · cases toU with
    | none => rfl
    | some t2 => simp [handleSendMessage]
  · cases toU <;> rfl
  · have hsp : ((" " : String) == "") = false := by decide
    cases hrec : findById users t with
    | none => simp [handleSendMessage, ht, hsp, hrec]
    | some r =>
      cases pf with
      | false => simp [handleSendMessage, ht, hsp, hrec]
      | true => simp [handleSendMessage, ht, hsp, hrec]

/-- Witness for the amended C3 at concrete inputs: sender 1 (alice),
recipient field 2, over the two-user fixture and the empty store. -/
theorem send_empty_body_invalid_witness :
    handleSendMessage sampleUsers false emptyStore 10 1 "alice" (some 2) (some "") =
      (emptyStore, [SendEvent.errorEvent "Invalid message data"]) ∧
    handleSendMessage sampleUsers false emptyStore 10 1 "alice" (some 2) none =
      (emptyStore, [SendEvent.errorEvent "Invalid message data"]) ∧
    (handleSendMessage sampleUsers false emptyStore 10 1 "alice" (some 2) (some " ")).2 ≠
      [SendEvent.errorEvent "Invalid message data"] :=
  send_empty_body_invalid sampleUsers false emptyStore 10 1 "alice" (some 2) 2 (by decide)

/-- Claim C9: a well-formed send whose to_user_id does not resolve to an
existing user fails with the RecipientNotFound error, the store is left
unchanged (no row persisted) and nothing is delivered. -/
theorem send_recipient_not_found (users : List UserRec) (pf : Bool)
    (st : MessageStore) (now sid : Nat) (sname : String) (t : Nat) (m : String)
    (ht : (t == 0) = false) (hm : (m == "") = false)
    (hrec : findById users t = none) :
    handleSendMessage users pf st now sid sname (some t) (some m) =
      (st, [SendEvent.errorEvent "Recipient not found"]) := by
  simp [handleSendMessage, ht, hm, hrec]

/-- Witness for C9: user 2 does not exist in a single-user table. -/
theorem send_recipient_not_found_witness :
    handleSendMessage [⟨1, "alice"⟩] false emptyStore 10 1 "alice" (some 2) (some "hi") =
      (emptyStore, [SendEvent.errorEvent "Recipient not found"]) :=
  send_recipient_not_found [⟨1, "alice"⟩] false emptyStore 10 1 "alice" 2 "hi"
    (by decide) (by decide) (by decide)

/-- Claim C5: no delivery before durability. If the send handler emitted a
receive_message or a message_sent event, then the persist step succeeded
and the resulting store is the old store extended with exactly the saved
row; and if the persist step fails, the store is unchanged and every
emitted event is an error event. -/
theorem send_persist_before_delivery (users : List UserRec) (pf : Bool)
    (st : MessageStore) (now sid : Nat) (sname : String)
    (toU : Option Nat) (msg : Option String) :
    ((∃ room obj, SendEvent.receiveMessage room obj ∈
        (handleSendMessage users pf st now sid sname toU msg).2) ∨
     (∃ obj, SendEvent.messageSent obj ∈
        (handleSendMessage users pf st now sid sname toU msg).2) →
      pf = false ∧
      ∃ saved : Msg,
        (handleSendMessage users pf st now sid sname toU msg).1.messages =
          st.messages ++ [saved]) ∧
    (pf = true →
      (handleSendMessage users pf st now sid sname toU msg).1 = st ∧
      ∀ e ∈ (handleSendMessage users pf st now sid sname toU msg).2,
        ∃ s, e = SendEvent.errorEvent s) := by
  cases toU with
  | none => simp [handleSendMessage]
  | some t =>
    cases msg with
    | none => simp [handleSendMessage]
    | some m =>
      by_cases hv : (t == 0 || m == "") = true
      · simp [handleSendMessage, hv]
      · rw [Bool.not_eq_true] at hv
        cases hrec : findById users t with
        | none => simp [handleSendMessage, hv, hrec]
        | some r =>
          cases pf with
          | true => simp [handleSendMessage, hv, hrec]
          | false =>
            refine ⟨fun _ => ⟨rfl, ⟨⟨st.nextId, sid, t, strTrim m, now⟩, ?_⟩⟩, by simp⟩
            simp [handleSendMessage, hv, hrec]

/-- Witness for C5: a successful concrete send did deliver, so the persist
flag was false and the saved row extends the store. -/
theorem send_persist_before_delivery_witness :
    false = false ∧
    ∃ saved : Msg,
      (handleSendMessage sampleUsers false emptyStore 10 1 "alice"
        (some 2) (some "hi")).1.messages = emptyStore.messages ++ [saved] :=
  (send_persist_before_delivery sampleUsers false emptyStore 10 1 "alice"
      (some 2) (some "hi")).1
    (Or.inr ⟨⟨1, 1, "alice", 2, "bob", "hi", 10⟩, by decide⟩)

/-- Claim C6: a successful send emits the delivery to the PERSONAL room of
the recipient (user_<toUserId>) and acknowledges the sender with the same
payload; the room broadcast reaches every socket that has joined that
personal room, independently of which chat rooms it joined; and a personal
room is never a conversation room. -/
theorem send_delivers_to_personal_room (users : List UserRec)
    (st : MessageStore) (now sid : Nat) (sname : String) (t : Nat) (m : String)
    (rcp : UserRec) (sockets : List SocketConn)
    (ht : (t == 0) = false) (hm : (m == "") = false)
    (hrec : findById users t = some rcp) :
    (∃ obj : MessageObject,
      (handleSendMessage users false st now sid sname (some t) (some m)).2 =
        [SendEvent.receiveMessage (getUserRoom t) obj,
         SendEvent.messageSent obj]) ∧
    (∀ s ∈ sockets, getUserRoom t ∈ s.rooms →
      s ∈ emitToRoom (getUserRoom t) sockets) ∧
    (∀ x y : Nat, getUserRoom t ≠ getChatRoom x y) := by
  refine ⟨?_, ?_, fun x y => userRoom_ne_chatRoom t x y⟩
  · refine ⟨⟨st.nextId, sid, sname, t, rcp.username, strTrim m, now⟩, ?_⟩
    simp [handleSendMessage, ht, hm, hrec]
  · intro s hs hroom
    unfold emitToRoom
    refine List.mem_filter.mpr ⟨hs, ?_⟩
    simpa using hroom

/-- Witness for C6: the concrete send from alice to bob over two sockets
of bob, one of which joined only its personal room and a chat room with a
third user. -/
theorem send_delivers_to_personal_room_witness :
    (∃ obj : MessageObject,
      (handleSendMessage sampleUsers false emptyStore 10 1 "alice"
        (some 2) (some "hi")).2 =
        [SendEvent.receiveMessage (getUserRoom 2) obj,
         SendEvent.messageSent obj]) ∧
    (∀ s ∈ [(⟨7, 2, ["user_2", "chat_2_3"]⟩ : SocketConn)],
      getUserRoom 2 ∈ s.rooms →
      s ∈ emitToRoom (getUserRoom 2) [(⟨7, 2, ["user_2", "chat_2_3"]⟩ : SocketConn)]) ∧
    (∀ x y : Nat, getUserRoom 2 ≠ getChatRoom x y) :=
  send_delivers_to_personal_room sampleUsers emptyStore 10 1 "alice" 2 "hi"
    ⟨2, "bob"⟩ [⟨7, 2, ["user_2", "chat_2_3"]⟩] (by decide) (by decide) (by decide)

/-- The connectedUsers map holds at most one entry per user id. -/
def keysDistinct (m : Registry) : Prop :=
  (m.map Prod.fst).Nodup

/-- After the in-place replacement branch of Map.set, a lookup at the key
finds the pair holding the new value. -/
theorem find?_replace_of_any (m : Registry) (k : Nat) (v : ConnInfo)
    (h : (m.any (fun p => p.fst == k)) = true) :
    (m.map (fun p => if p.fst == k then (k, v) else p)).find?
      (fun p => p.fst == k) = some (k, v) := by
  induction m with
  | nil => simp at h
  | cons p rest ih =>
    by_cases hp : (p.fst == k) = true
    · rw [List.map_cons, if_pos hp]
      exact List.find?_cons_of_pos _ (by simp)
    · have hrest : (rest.any (fun q => q.fst == k)) = true := by
        simpa [List.any_cons, hp] using h
      rw [List.map_cons, if_neg (by simp [hp])]
      rw [List.find?_cons_of_neg _ (by simp [hp])]
      exact ih hrest

/-- After the append branch of Map.set (key not yet present), a lookup at
the key finds the appended pair. -/
theorem find?_append_of_none (m : Registry) (k : Nat) (v : ConnInfo)
    (h : (m.any (fun p => p.fst == k)) = false) :
    ((m ++ [(k, v)]).find? (fun p => p.fst == k)) = some (k, v) := by
  induction m with
  | nil => simp [List.find?]
  | cons p rest ih =>
    simp only [List.any_cons, Bool.or_eq_false_iff] at h
    rw [List.cons_append, List.find?_cons_of_neg _ (by simp [h.1])]
    exact ih h.2

/-- Map.set followed by Map.get at the same key yields the value just
stored, whatever the map held before. -/
theorem mapGet_mapSet (m : Registry) (k : Nat) (v : ConnInfo) :
    mapGet (mapSet m k v) k = some v := by
  unfold mapGet mapSet
  by_cases hany : (m.any (fun p => p.fst == k)) = true
  · rw [if_pos hany, find?_replace_of_any m k v hany]
    rfl
  · rw [if_neg hany, find?_append_of_none m k v (eq_false_of_ne_true hany)]
    rfl

/-- Map.set on a key already present replaces in place: the size of the
map does not grow. -/
theorem mapSet_length_of_mem (m : Registry) (k : Nat) (v : ConnInfo)
    (h : (m.any (fun p => p.fst == k)) = true) :
    (mapSet m k v).length = m.length := by
  simp [mapSet, h]

/-- Map.delete removes the entry at the key: a lookup afterwards finds
nothing. -/
theorem mapGet_mapDelete (m : Registry) (k : Nat) :
    mapGet (mapDelete m k) k = none := by
  unfold mapGet mapDelete
  rw [List.find?_eq_none.mpr]
  · rfl
  · intro p hp
    have hmem := List.of_mem_filter hp
    simpa using hmem

/-- mapSet keeps the key list duplicate-free. -/
theorem keysDistinct_mapSet (m : Registry) (k : Nat) (v : ConnInfo)
    (h : keysDistinct m) : keysDistinct (mapSet m k v) := by
  unfold keysDistinct mapSet
  by_cases hany : (m.any (fun p => p.fst == k)) = true
  · rw [if_pos hany]
    have hkeys : (m.map (fun p => if p.fst == k then (k, v) else p)).map Prod.fst
        = m.map Prod.fst := by
      rw [List.map_map]
      refine List.map_congr_left ?_
      intro p _
      by_cases hp : (p.fst == k) = true
      · have hpk : p.fst = k := by simpa using hp
        simp [Function.comp, hp, hpk]
      · simp [Function.comp, hp]
    rw [hkeys]
    exact h
  · rw [if_neg hany]
    rw [List.map_append]
    refine List.Nodup.append h (by simp) ?_
    intro a ha hb
    simp only [List.map_cons, List.map_nil, List.mem_singleton] at hb
    subst hb
    rcases List.mem_map.mp ha with ⟨p, hp, hfst⟩
    rw [Bool.not_eq_true, List.any_eq_false] at hany
    exact hany p hp (by simp [hfst])

/-- mapDelete keeps the key list duplicate-free. -/
theorem keysDistinct_mapDelete (m : Registry) (k : Nat)
    (h : keysDistinct m) : keysDistinct (mapDelete m k) := by
  unfold keysDistinct mapDelete
  exact List.Nodup.sublist (List.Sublist.map Prod.fst (List.filter_sublist m)) h

/-- One lifecycle event keeps the key list duplicate-free. -/
theorem keysDistinct_registryStep (m : Registry) (e : SocketEvent)
    (h : keysDistinct m) : keysDistinct (registryStep m e) := by
  cases e with
  | connection u s n => exact keysDistinct_mapSet m u ⟨s, n⟩ h
  | disconnect u s => exact keysDistinct_mapDelete m u h

/-- Key distinctness is preserved along any event sequence. -/
theorem keysDistinct_foldl (es : List SocketEvent) :
    ∀ m : Registry, keysDistinct m → keysDistinct (es.foldl registryStep m) := by
  induction es with
  | nil => intro m h; exact h
  | cons e rest ih =>
    intro m h
    exact ih (registryStep m e) (keysDistinct_registryStep m e h)

/-- Claim C10: in every state reachable from the empty connectedUsers map
the registry holds at most one entry per user id; a second admission by
the same user overwrites the existing entry in place (the new record is
found and the map does not grow); and a disconnect of any socket owned by
a user removes the entry keyed by that user id, whichever socket id the
closing connection had. -/
theorem connectedUsers_at_most_one (es : List SocketEvent) :
    keysDistinct (runRegistry es) ∧
    (∀ (m : Registry) (u s : Nat) (n : String),
      mapGet (registryStep m (SocketEvent.connection u s n)) u = some ⟨s, n⟩) ∧
    (∀ (m : Registry) (u : Nat) (v : ConnInfo),
      (m.any (fun p => p.fst == u)) = true → (mapSet m u v).length = m.length) ∧
    (∀ (m : Registry) (u sid : Nat),
      mapGet (registryStep m (SocketEvent.disconnect u sid)) u = none) := by
  refine ⟨keysDistinct_foldl es [] (by simp [keysDistinct]), ?_, ?_, ?_⟩
  · intro m u s n
    exact mapGet_mapSet m u ⟨s, n⟩
  · intro m u v h
    exact mapSet_length_of_mem m u v h
  · intro m u sid
    exact mapGet_mapDelete m u

/-- Witness for C10: a reconnection by user 1 with a new socket overwrites
the entry (lookup yields the new record, the map stays size 1), and a
disconnect carrying a foreign socket id still removes the entry of
user 1. -/
theorem connectedUsers_at_most_one_witness :
    keysDistinct (runRegistry [SocketEvent.connection 1 5 "alice"]) ∧
    mapGet (registryStep [(1, ⟨5, "alice"⟩)] (SocketEvent.connection 1 6 "alice")) 1 =
      some ⟨6, "alice"⟩ ∧
    (mapSet [(1, ⟨5, "alice"⟩)] 1 ⟨6, "alice"⟩).length = 1 ∧
    mapGet (registryStep [(1, ⟨5, "alice"⟩)] (SocketEvent.disconnect 1 99)) 1 = none := by
  have h := connectedUsers_at_most_one [SocketEvent.connection 1 5 "alice"]
  exact ⟨h.1, h.2.1 [(1, ⟨5, "alice"⟩)] 1 6 "alice",
    h.2.2.1 [(1, ⟨5, "alice"⟩)] 1 ⟨6, "alice"⟩ (by decide),
    h.2.2.2 [(1, ⟨5, "alice"⟩)] 1 99⟩

end Backend
